import Mathlib

/- Shallow embedding of the core of the GoQuant orderbook viewer
   (src/src/app/page.js): the per-venue message adapters, the simulation
   scheduling of the main component, and the order-impact simulator
   calculateMetrics, together with proofs relating them to the
   specification. -/

/- JavaScript number semantics restricted to what the embedded code can
   produce: exact rationals (the inputs of interest are short decimal
   literals, on which double arithmetic is exact) extended with NaN and
   the two signed infinities, which the code can produce via 0/0 and
   division by zero and which propagate through arithmetic. -/
inductive JNum where
  | fin (q : ℚ)
  | nan
  | inf
  | negInf
  deriving DecidableEq

namespace JNum

def add : JNum → JNum → JNum
  | nan, _ => nan
  | _, nan => nan
  | fin a, fin b => fin (a + b)
  | inf, negInf => nan
  | negInf, inf => nan
  | inf, _ => inf
  | _, inf => inf
  | negInf, _ => negInf
  | _, negInf => negInf

def neg : JNum → JNum
  | fin a => fin (-a)
  | nan => nan
  | inf => negInf
  | negInf => inf

def sub (a b : JNum) : JNum := add a (neg b)

def mul : JNum → JNum → JNum
  | nan, _ => nan
  | _, nan => nan
  | fin a, fin b => fin (a * b)
  | inf, fin b => if b = 0 then nan else if 0 < b then inf else negInf
  | fin a, inf => if a = 0 then nan else if 0 < a then inf else negInf
  | negInf, fin b => if b = 0 then nan else if 0 < b then negInf else inf
  | fin a, negInf => if a = 0 then nan else if 0 < a then negInf else inf
  | inf, inf => inf
  | inf, negInf => negInf
  | negInf, inf => negInf
  | negInf, negInf => inf

def div : JNum → JNum → JNum
  | nan, _ => nan
  | _, nan => nan
  | fin a, fin b =>
      if b = 0 then (if a = 0 then nan else if 0 < a then inf else negInf)
      else fin (a / b)
  | fin _, inf => fin 0
  | fin _, negInf => fin 0
  | inf, fin b => if 0 ≤ b then inf else negInf
  | negInf, fin b => if 0 ≤ b then negInf else inf
  | inf, inf => nan
  | inf, negInf => nan
  | negInf, inf => nan
  | negInf, negInf => nan

/- Math.abs -/
def jabs : JNum → JNum
  | fin a => fin |a|
  | nan => nan
  | inf => inf
  | negInf => inf

/- Math.min: NaN if either argument is NaN. -/
def jmin : JNum → JNum → JNum
  | nan, _ => nan
  | _, nan => nan
  | negInf, _ => negInf
  | _, negInf => negInf
  | inf, b => b
  | a, inf => a
  | fin a, fin b => fin (min a b)

/- JavaScript comparison operators: any comparison with NaN is false. -/
def lt : JNum → JNum → Bool
  | nan, _ => false
  | _, nan => false
  | fin a, fin b => decide (a < b)
  | negInf, negInf => false
  | negInf, _ => true
  | _, negInf => false
  | inf, _ => false
  | fin _, inf => true

def le : JNum → JNum → Bool
  | nan, _ => false
  | _, nan => false
  | fin a, fin b => decide (a ≤ b)
  | negInf, _ => true
  | _, negInf => false
  | _, inf => true
  | inf, _ => false

def gt (a b : JNum) : Bool := lt b a

def ge (a b : JNum) : Bool := le b a

theorem add_fin_zero : ∀ a : JNum, add a (fin 0) = a := by
  intro a
  cases a <;> simp [add]

theorem add_assoc_j : ∀ a b c : JNum, add (add a b) c = add a (add b c) := by
  intro a b c
  cases a <;> cases b <;> cases c <;> simp [add, add_assoc]

end JNum

/- A price level, already coerced through parseFloat: (price, size).
   Canonical book levels are finite decimals (data model section 3). -/
abbrev Level := ℚ × ℚ

structure Book where
  bids : List Level
  asks : List Level
  deriving DecidableEq

inductive Side where
  | buy
  | sell
  deriving DecidableEq

inductive OrderType where
  | market
  | limit
  deriving DecidableEq

/- The order object passed to calculateMetrics: side, quantity and price
   after parseFloat (so possibly NaN), and the order type. -/
structure SimOrder where
  side : Side
  orderType : OrderType
  quantity : JNum
  price : JNum
  deriving DecidableEq

structure Metrics where
  fillPercent : JNum
  slippage : JNum
  impact : JNum
  warning : String
  deriving DecidableEq

/- ---- The market-order walk of calculateMetrics (page.js lines 511-527),
   embedded as the exact loop: mutable state threaded through a fold, with
   the break realized as a flag that freezes the state. -/

structure MState where
  filledQty : JNum
  totalCost : JNum
  qtyToFill : JNum
  broke : Bool
  deriving DecidableEq

def marketStep (s : MState) (lvl : Level) : MState :=
  if s.broke then s
  else
    let p := JNum.fin lvl.1
    let q := JNum.fin lvl.2
    let fillable := JNum.jmin s.qtyToFill q
    let filled := JNum.add s.filledQty fillable
    let cost := JNum.add s.totalCost (JNum.mul fillable p)
    let qtf := JNum.sub s.qtyToFill fillable
    { filledQty := filled, totalCost := cost, qtyToFill := qtf,
      broke := JNum.le qtf (JNum.fin 0) }

def marketLoop (levels : List Level) (qty : JNum) : MState :=
  List.foldl marketStep
    { filledQty := JNum.fin 0, totalCost := JNum.fin 0,
      qtyToFill := qty, broke := false } levels

/- ---- The limit-order walk (page.js lines 529-544): a level fills only
   when its price is within the limit; the break check runs after every
   level whether or not it was eligible. -/

def eligLevel (side : Side) (limitPrice : JNum) (lvl : Level) : Bool :=
  match side with
  | .buy => JNum.le (JNum.fin lvl.1) limitPrice
  | .sell => JNum.ge (JNum.fin lvl.1) limitPrice

structure LState where
  filledQty : JNum
  qtyToFill : JNum
  broke : Bool
  deriving DecidableEq

def limitStep (side : Side) (limitPrice : JNum) (s : LState) (lvl : Level) :
    LState :=
  if s.broke then s
  else
    let q := JNum.fin lvl.2
    let s1 :=
      if eligLevel side limitPrice lvl then
        let fillable := JNum.jmin s.qtyToFill q
        { s with filledQty := JNum.add s.filledQty fillable,
                 qtyToFill := JNum.sub s.qtyToFill fillable }
      else s
    { s1 with broke := JNum.le s1.qtyToFill (JNum.fin 0) }

def limitLoop (side : Side) (limitPrice : JNum) (levels : List Level)
    (qty : JNum) : LState :=
  List.foldl (limitStep side limitPrice)
    { filledQty := JNum.fin 0, qtyToFill := qty, broke := false } levels

/- The interpolated impact figure in the warning text is abstracted to the
   constant prefix of the message; only its non-emptiness is ever used. -/
def warnText : String :=
  "High slippage warning! Your order may cause a price impact of approximately $"

/- ---- calculateMetrics (page.js lines 498-553).  The three mutable
   locals filledQty, slippage and impact after the if/else on the order
   type, in that order. -/
def metricsCore (order : SimOrder) (book : Book) : JNum × JNum × JNum :=
  let qty := order.quantity
  let bookSide := match order.side with
    | .buy => book.asks
    | .sell => book.bids
  let entryPrice : JNum := JNum.fin (match bookSide.head? with
    | some l => l.1
    | none => 0)
  match order.orderType with
  | .market =>
      let s := marketLoop bookSide qty
      let avgFillPrice := JNum.div s.totalCost s.filledQty
      let slippage :=
        if JNum.gt entryPrice (JNum.fin 0) && JNum.gt s.filledQty (JNum.fin 0)
        then JNum.mul
               (JNum.jabs (JNum.div (JNum.sub avgFillPrice entryPrice)
                 entryPrice))
               (JNum.fin 100)
        else JNum.fin 0
      let impact := JNum.jabs (JNum.sub avgFillPrice entryPrice)
      (s.filledQty, slippage, impact)
  | .limit =>
      let s := limitLoop order.side order.price bookSide qty
      (s.filledQty, JNum.fin 0, JNum.fin 0)

def calculateMetrics (order : SimOrder) (book : Book) : Metrics :=
  let core := metricsCore order book
  let fillPercent :=
    if JNum.gt order.quantity (JNum.fin 0)
    then JNum.mul (JNum.div core.1 order.quantity) (JNum.fin 100)
    else JNum.fin 100
  let warning := if JNum.gt core.2.1 (JNum.fin (1/2)) then warnText else ""
  { fillPercent := fillPercent, slippage := core.2.1, impact := core.2.2,
    warning := warning }

/- ---- Specification-side walk, written from the words of the spec
   (section 4.3, step 3): at each level fill min(remaining, levelSize),
   accumulate the filled quantity and cost, stop once the remaining
   quantity is at most zero or the levels are exhausted.  Returns
   (filledQuantity, totalCost). -/
def marketWalkSpec : List Level → JNum → JNum × JNum
  | [], _ => (JNum.fin 0, JNum.fin 0)
  | (p, q) :: rest, remaining =>
      let fillable := JNum.jmin remaining (JNum.fin q)
      let newRem := JNum.sub remaining fillable
      if JNum.le newRem (JNum.fin 0) then
        (fillable, JNum.mul fillable (JNum.fin p))
      else
        let pr := marketWalkSpec rest newRem
        (JNum.add fillable pr.1,
         JNum.add (JNum.mul fillable (JNum.fin p)) pr.2)

theorem marketStep_broke (s : MState) (lvl : Level) (h : s.broke = true) :
    marketStep s lvl = s := by
  simp [marketStep, h]

theorem marketLoop_frozen (levels : List Level) (s : MState)
    (h : s.broke = true) : List.foldl marketStep s levels = s := by
  induction levels with
  | nil => rfl
  | cons lvl rest ih => simp [List.foldl, marketStep_broke s lvl h, ih]

theorem marketLoop_eq_walk (levels : List Level) (s : MState)
    (h : s.broke = false) :
    (List.foldl marketStep s levels).filledQty
        = JNum.add s.filledQty (marketWalkSpec levels s.qtyToFill).1
      ∧ (List.foldl marketStep s levels).totalCost
        = JNum.add s.totalCost (marketWalkSpec levels s.qtyToFill).2 := by
  induction levels generalizing s with
  | nil => simp [marketWalkSpec, JNum.add_fin_zero]
  | cons lvl rest ih =>
    obtain ⟨p, q⟩ := lvl
    have hstep : marketStep s (p, q) =
        { filledQty := JNum.add s.filledQty (JNum.jmin s.qtyToFill (JNum.fin q)),
          totalCost := JNum.add s.totalCost
            (JNum.mul (JNum.jmin s.qtyToFill (JNum.fin q)) (JNum.fin p)),
          qtyToFill := JNum.sub s.qtyToFill (JNum.jmin s.qtyToFill (JNum.fin q)),
          broke := JNum.le
            (JNum.sub s.qtyToFill (JNum.jmin s.qtyToFill (JNum.fin q)))
            (JNum.fin 0) } := by
      simp [marketStep, h]
    by_cases hb : JNum.le
        (JNum.sub s.qtyToFill (JNum.jmin s.qtyToFill (JNum.fin q)))
        (JNum.fin 0) = true
    · have hfrozen := marketLoop_frozen rest (marketStep s (p, q))
        (by rw [hstep]; exact hb)
      rw [List.foldl_cons, hfrozen, hstep]
      simp [marketWalkSpec, hb]
    · have hb' : JNum.le
          (JNum.sub s.qtyToFill (JNum.jmin s.qtyToFill (JNum.fin q)))
          (JNum.fin 0) = false := by
        simpa using hb
      have ih' := ih (marketStep s (p, q)) (by rw [hstep]; simp [hb'])
      rw [List.foldl_cons] at *
      rw [ih'.1, ih'.2, hstep]
      simp [marketWalkSpec, hb', JNum.add_assoc_j]

theorem JNum.sub_fin (a b : ℚ) :
    JNum.sub (JNum.fin a) (JNum.fin b) = JNum.fin (a - b) := by
  simp [JNum.sub, JNum.add, JNum.neg, sub_eq_add_neg]

theorem limitStep_broke (side : Side) (limitPrice : JNum) (s : LState)
    (lvl : Level) (h : s.broke = true) : limitStep side limitPrice s lvl = s := by
  simp [limitStep, h]

theorem limitLoop_frozen (side : Side) (limitPrice : JNum)
    (levels : List Level) (s : LState) (h : s.broke = true) :
    List.foldl (limitStep side limitPrice) s levels = s := by
  induction levels with
  | nil => rfl
  | cons lvl rest ih =>
    simp [List.foldl, limitStep_broke side limitPrice s lvl h, ih]

/- On a limit walk started with a strictly positive finite quantity, the
   ineligible levels are exactly skipped: the filled quantity agrees with
   the market walk of the spec run over the eligible levels only. -/
theorem limitLoop_eq_filtered_walk (side : Side) (limitPrice : JNum)
    (levels : List Level) :
    ∀ (f : JNum) (t : ℚ), 0 < t →
    (List.foldl (limitStep side limitPrice)
        ⟨f, JNum.fin t, false⟩ levels).filledQty
      = JNum.add f
          (marketWalkSpec (levels.filter (eligLevel side limitPrice))
            (JNum.fin t)).1 := by
  induction levels with
  | nil =>
    intro f t ht
    simp [marketWalkSpec, JNum.add_fin_zero]
  | cons lvl rest ih =>
    intro f t ht
    obtain ⟨p, q⟩ := lvl
    by_cases he : eligLevel side limitPrice (p, q) = true
    · have hstep : limitStep side limitPrice ⟨f, JNum.fin t, false⟩ (p, q)
          = ⟨JNum.add f (JNum.fin (min t q)), JNum.fin (t - min t q),
             decide (t - min t q ≤ 0)⟩ := by
        simp [limitStep, he, JNum.jmin, JNum.sub_fin, JNum.le]
      by_cases hrem : t - min t q ≤ 0
      · rw [List.foldl_cons, hstep,
          limitLoop_frozen side limitPrice rest _ (by simp [hrem])]
        simp only [List.filter_cons, he, if_true, marketWalkSpec]
        simp [JNum.jmin, JNum.sub_fin, JNum.le, hrem]
      · have hbr : decide (t - min t q ≤ 0) = false := by simp [hrem]
        rw [List.foldl_cons, hstep, hbr,
          ih (JNum.add f (JNum.fin (min t q))) (t - min t q)
            (by linarith [not_le.mp hrem])]
        simp only [List.filter_cons, he, if_true, marketWalkSpec]
        simp [JNum.jmin, JNum.sub_fin, JNum.le, hrem, JNum.add_assoc_j]
    · have hstep : limitStep side limitPrice ⟨f, JNum.fin t, false⟩ (p, q)
          = ⟨f, JNum.fin t, false⟩ := by
        simp [limitStep, he, JNum.le, ht.not_le]
      rw [List.foldl_cons, hstep, ih f t ht]
      simp [List.filter_cons, he]

/- ---- Venue adapters (page.js lines 31-77).  Raw messages are modelled
   post-JSON-decoding, with optional fields as Option; level price/size
   strings are modelled by the numbers parseFloat yields on them. -/

structure OkxArg where
  channel : String
  deriving DecidableEq

structure RawLadders where
  bids : List Level
  asks : List Level
  deriving DecidableEq

structure OkxMsg where
  arg : Option OkxArg
  data : List RawLadders
  deriving DecidableEq

/- OKX parse (lines 36-41): on a books update it returns the raw bids and
   the raw asks reversed ("OKX asks are ascending, we need descending from
   best ask" in the source); otherwise undefined, i.e. no update. -/
def okxParse (m : OkxMsg) : Option Book :=
  match m.arg, m.data with
  | some a, d :: _ =>
      if a.channel = "books" then some ⟨d.bids, d.asks.reverse⟩ else none
  | _, _ => none

/- Bybit parse (lines 47-52): pass-through of the b/a ladders when the
   topic matches. -/
structure BybitMsg where
  topic : Option String
  data : Option RawLadders
  deriving DecidableEq

def bybitParse (m : BybitMsg) : Option Book :=
  match m.topic, m.data with
  | some t, some d =>
      if t.startsWith "orderbook.50" then some ⟨d.bids, d.asks⟩ else none
  | _, _ => none

/- Deribit message shape (lines 54-75).  params.channel is accessed with
   .startsWith without a presence check, so a params object without a
   channel field makes the handler throw a TypeError; the embedding makes
   every JavaScript exception an .error value. -/
structure DeribitParams where
  channel : Option String
  data : Option RawLadders
  deriving DecidableEq

structure DeribitMsg where
  event : Option String
  op : Option String
  method : Option String
  params : Option DeribitParams
  deriving DecidableEq

def deribitParse (m : DeribitMsg) : Except String (Option Book) :=
  match m.params with
  | none => .ok none
  | some ps =>
      match ps.channel with
      | none => .error "TypeError: undefined has no method startsWith"
      | some ch =>
          if ch.startsWith "book." then
            match ps.data with
            | none => .ok none
            | some d => .ok (some ⟨d.bids, d.asks⟩)
          else .ok none

/- The onmessage handler (lines 109-121) for the Deribit session: the
   JSON.parse of the raw text is not wrapped in try/catch, so a decode
   failure (modelled as an .error input) propagates; heartbeat and pong
   frames are dropped before parsing. -/
def deribitOnMessage (decoded : Except String DeribitMsg) :
    Except String (Option Book) :=
  match decoded with
  | .error e => .error e
  | .ok d =>
      if d.event = some "pong" ∨ d.op = some "pong" ∨ d.method = some "heartbeat"
      then .ok none
      else deribitParse d

/- Strict price ordering predicates for the canonical-book invariants. -/
def strictAscB : List Level → Bool
  | [] => true
  | [_] => true
  | a :: b :: rest => decide (a.1 < b.1) && strictAscB (b :: rest)

def strictDescB : List Level → Bool
  | [] => true
  | [_] => true
  | a :: b :: rest => decide (b.1 < a.1) && strictDescB (b :: rest)

/- ---- findSimulatedIndex (page.js lines 205-213): JavaScript findIndex
   over the displayed ladder, -1 when nothing matches. -/

def jsFindIndexFrom (pred : Level → Bool) : List Level → Nat → Int
  | [], _ => -1
  | x :: xs, i => if pred x then (i : Int) else jsFindIndexFrom pred xs (i + 1)

def jsFindIndex (pred : Level → Bool) (l : List Level) : Int :=
  jsFindIndexFrom pred l 0

/- The view-model order passed to findSimulatedIndex: a side and the
   parseFloat of its price field. -/
structure LocatorOrder where
  side : Side
  price : JNum
  deriving DecidableEq

def findSimulatedIndex (levels : List Level) (order : Option LocatorOrder) :
    Int :=
  match order with
  | none => -1
  | some o =>
      match o.side with
      | .buy => jsFindIndex (fun lvl => JNum.ge o.price (JNum.fin lvl.1)) levels
      | .sell => jsFindIndex (fun lvl => JNum.le o.price (JNum.fin lvl.1)) levels

/- Specification-side locator, from the words of the claim: the index of
   the first level whose price satisfies the predicate, -1 when no level
   does. -/
def firstIdxSpec (pred : Level → Bool) : List Level → Option Nat
  | [] => none
  | x :: xs =>
      if pred x then some 0 else (firstIdxSpec pred xs).map (· + 1)

def specLocator (pred : Level → Bool) (levels : List Level) : Int :=
  match firstIdxSpec pred levels with
  | some i => (i : Int)
  | none => -1

theorem jsFindIndexFrom_eq (pred : Level → Bool) (l : List Level) :
    ∀ n : Nat, jsFindIndexFrom pred l n
      = (match firstIdxSpec pred l with
         | some i => ((n + i : Nat) : Int)
         | none => -1) := by
  induction l with
  | nil => intro n; simp [jsFindIndexFrom, firstIdxSpec]
  | cons x xs ih =>
    intro n
    by_cases hx : pred x = true
    · simp [jsFindIndexFrom, hx, firstIdxSpec]
    · simp only [jsFindIndexFrom, hx, if_false, firstIdxSpec,
        Bool.false_eq_true, ih (n + 1)]
      cases h : firstIdxSpec pred xs with
      | none => simp [h]
      | some i =>
        simp [h]
        ring

theorem firstIdxSpec_eq_none_iff (pred : Level → Bool) (l : List Level) :
    firstIdxSpec pred l = none ↔ ∀ lvl ∈ l, pred lvl = false := by
  induction l with
  | nil => simp [firstIdxSpec]
  | cons x xs ih =>
    by_cases hx : pred x = true
    · simp [firstIdxSpec, hx]
    · simp [firstIdxSpec, hx, ih, Bool.not_eq_true] at *

theorem firstIdxSpec_first (pred : Level → Bool) (l : List Level) :
    ∀ i : Nat, firstIdxSpec pred l = some i →
      ∃ h : i < l.length, pred (l.get ⟨i, h⟩) = true
        ∧ ∀ j : Nat, ∀ hj : j < i,
            pred (l.get ⟨j, by omega⟩) = false := by
  induction l with
  | nil => intro i h; simp [firstIdxSpec] at h
  | cons x xs ih =>
    intro i h
    by_cases hx : pred x = true
    · simp [firstIdxSpec, hx] at h
      subst h
      exact ⟨by simp, hx, fun j hj => by omega⟩
    · simp [firstIdxSpec, hx] at h
      obtain ⟨k, hk, rfl⟩ := h
      obtain ⟨hlen, hpred, hbefore⟩ := ih k hk
      refine ⟨by simpa using Nat.succ_lt_succ hlen, by simpa using hpred, ?_⟩
      intro j hj
      cases j with
      | zero => simpa using hx
      | succ j' => simpa using hbefore j' (by omega)

/- ---- The simulation scheduling of the main component (page.js lines
   475-585), as a single-threaded event machine.  handleSimulationSubmit
   defines executeSimulation as a closure over the currentOrderbook value
   of the render in which the submission happened; when a positive delay
   is configured the closure is scheduled with setTimeout, so the book it
   later reads is the one captured at submission time.  The pending slot
   therefore stores the captured book alongside the form data, and a
   later book update changes only currentBook. -/

structure FormData where
  side : Side
  orderType : OrderType
  quantity : JNum
  price : JNum
  delay : Nat
  deriving DecidableEq

structure AppState where
  currentBook : Book
  pendingSim : Option (FormData × Book)
  simulatedOrder : Option SimOrder
  simulationMetrics : Option Metrics
  deriving DecidableEq

def initialAppState : AppState :=
  ⟨⟨[], []⟩, none, none, none⟩

/- Price resolution inside executeSimulation (lines 564-571): a market
   order takes the best opposite price of the captured book when that
   side is non-empty. -/
def resolvePrice (f : FormData) (book : Book) : JNum :=
  if f.orderType = .market then
    match f.side with
    | .buy =>
        match book.asks.head? with
        | some l => JNum.fin l.1
        | none => f.price
    | .sell =>
        match book.bids.head? with
        | some l => JNum.fin l.1
        | none => f.price
  else f.price

def executeSimulation (f : FormData) (book : Book) (s : AppState) : AppState :=
  let order : SimOrder := ⟨f.side, f.orderType, f.quantity, resolvePrice f book⟩
  { s with simulatedOrder := some order,
           simulationMetrics := some (calculateMetrics order book),
           pendingSim := none }

inductive AppEvent where
  | bookUpdate (b : Book)
  | submit (f : FormData)
  | fire
  deriving DecidableEq

def appStep (s : AppState) : AppEvent → AppState
  | .bookUpdate b => { s with currentBook := b }
  | .submit f =>
      let s1 := { s with pendingSim := none }
      if f.delay > 0 then { s1 with pendingSim := some (f, s.currentBook) }
      else executeSimulation f s.currentBook s1
  | .fire =>
      match s.pendingSim with
      | some (f, capturedBook) =>
          executeSimulation f capturedBook { s with pendingSim := none }
      | none => s

def appRun (events : List AppEvent) : AppState :=
  List.foldl appStep initialAppState events

/-- C1: the claim requires every parsed update to satisfy the canonical
ordering invariants, and in particular that the venue whose raw asks
arrive ascending by price (OKX) keeps them unreversed.  The adapter does
the opposite: on a valid books message whose asks are strictly ascending,
okxParse publishes the asks reversed, so the published asks are strictly
descending and the ascending invariant fails. -/
theorem c1_okx_reverses_ascending_asks :
    okxParse ⟨some ⟨"books"⟩, [⟨[(99, 1)], [(100, 1), (101, 2)]⟩]⟩
      = some ⟨[(99, 1)], [(101, 2), (100, 1)]⟩
    ∧ strictAscB [(100, 1), (101, 2)] = true
    ∧ strictAscB [(101, 2), (100, 1)] = false
    ∧ strictDescB [(101, 2), (100, 1)] = true := by
  refine ⟨by norm_num [okxParse], by norm_num [strictAscB],
    by norm_num [strictAscB], by norm_num [strictDescB]⟩

/-- C2: the claim says the adapter layer never throws on malformed input.
The Deribit handler violates it twice: a message whose params object has
no channel field makes parse throw a TypeError at
params.channel.startsWith, and malformed JSON throws out of the
onmessage handler because JSON.parse is not wrapped in try/catch. -/
theorem c2_deribit_adapter_throws :
    deribitOnMessage (.ok ⟨none, none, none, some ⟨none, some ⟨[], []⟩⟩⟩)
      = .error "TypeError: undefined has no method startsWith"
    ∧ deribitOnMessage (.error "SyntaxError: Unexpected token")
      = .error "SyntaxError: Unexpected token" := by
  constructor
  · simp [deribitOnMessage, deribitParse]
  · rfl

def bookAtSubmit : Book := ⟨[], [(100, 2)]⟩

def bookAtFire : Book := ⟨[], [(100, 1)]⟩

def delayedForm : FormData := ⟨.buy, .market, JNum.fin 2, JNum.nan, 5⟩

/-- C3: the claim says a delayed submission computes its ImpactResult from
the CanonicalBook current at the effective-execution time.  In the code
the scheduled closure reads the currentOrderbook captured when the
submission happened, so after a book update arrives during the delay the
published metrics still come from the submission-time book: here the book
at fire time would give a 50 percent fill, yet the published metrics
report 100 percent, exactly the metrics of the submission-time book. -/
theorem c3_delayed_sim_uses_submission_book :
    (appRun [.bookUpdate bookAtSubmit, .submit delayedForm,
        .bookUpdate bookAtFire, .fire]).currentBook = bookAtFire
    ∧ (appRun [.bookUpdate bookAtSubmit, .submit delayedForm,
        .bookUpdate bookAtFire, .fire]).simulationMetrics
      = some (calculateMetrics ⟨.buy, .market, JNum.fin 2, JNum.fin 100⟩
          bookAtSubmit)
    ∧ (calculateMetrics ⟨.buy, .market, JNum.fin 2, JNum.fin 100⟩
        bookAtSubmit).fillPercent = JNum.fin 100
    ∧ (calculateMetrics ⟨.buy, .market, JNum.fin 2, JNum.fin 100⟩
        bookAtFire).fillPercent = JNum.fin 50 := by
  refine ⟨rfl, ?_, ?_, ?_⟩
  · norm_num [appRun, appStep, initialAppState, executeSimulation,
      resolvePrice, bookAtSubmit, bookAtFire, delayedForm]
  · norm_num [calculateMetrics, metricsCore, marketLoop, marketStep,
      bookAtSubmit, JNum.jmin, JNum.add, JNum.mul, JNum.sub, JNum.neg,
      JNum.div, JNum.jabs, JNum.le, JNum.lt, JNum.gt, warnText]
  · norm_num [calculateMetrics, metricsCore, marketLoop, marketStep,
      bookAtFire, JNum.jmin, JNum.add, JNum.mul, JNum.sub, JNum.neg,
      JNum.div, JNum.jabs, JNum.le, JNum.lt, JNum.gt, warnText]

/-- C4 counterexample: a market Buy of quantity 1 against a book whose
asks side is empty produces priceImpact = NaN (0/0 propagated through
Math.abs), which is not a decimal and in particular not >= 0, falsifying
the claim that every field stays a well-defined decimal. -/
theorem c4_counterexample_impact_is_nan :
    (calculateMetrics ⟨.buy, .market, JNum.fin 1, JNum.nan⟩
        ⟨[(99, 1)], []⟩).impact = JNum.nan := by
  norm_num [calculateMetrics, metricsCore, marketLoop, JNum.jmin,
    JNum.add, JNum.mul, JNum.sub, JNum.neg, JNum.div, JNum.jabs,
    JNum.le, JNum.lt, JNum.gt]

/-- C4 amended: for every market order with positive quantity against a
book whose consumed side has zero levels, the result degrades without
crashing to filledQuantity = 0, fillPercent = 0 and slippagePercent = 0,
but priceImpact is NaN rather than a decimal >= 0. -/
theorem c4_amended_empty_side_degrades :
    ∀ (t : ℚ), 0 < t → ∀ (price : JNum) (bids asks : List Level),
      ((calculateMetrics ⟨.buy, .market, JNum.fin t, price⟩
          ⟨bids, []⟩).fillPercent = JNum.fin 0
        ∧ (calculateMetrics ⟨.buy, .market, JNum.fin t, price⟩
            ⟨bids, []⟩).slippage = JNum.fin 0
        ∧ (calculateMetrics ⟨.buy, .market, JNum.fin t, price⟩
            ⟨bids, []⟩).impact = JNum.nan
        ∧ (marketLoop ([] : List Level) (JNum.fin t)).filledQty = JNum.fin 0)
      ∧ ((calculateMetrics ⟨.sell, .market, JNum.fin t, price⟩
            ⟨[], asks⟩).fillPercent = JNum.fin 0
        ∧ (calculateMetrics ⟨.sell, .market, JNum.fin t, price⟩
            ⟨[], asks⟩).slippage = JNum.fin 0
        ∧ (calculateMetrics ⟨.sell, .market, JNum.fin t, price⟩
            ⟨[], asks⟩).impact = JNum.nan) := by
  intro t ht price bids asks
  have hne : t ≠ 0 := ne_of_gt ht
  refine ⟨⟨?_, ?_, ?_, rfl⟩, ?_, ?_, ?_⟩ <;>
    simp [calculateMetrics, metricsCore, marketLoop, JNum.jmin, JNum.add,
      JNum.mul, JNum.sub, JNum.neg, JNum.div, JNum.jabs, JNum.le, JNum.lt,
      JNum.gt, ht, hne]

theorem c4_amended_witness :
    (0 : ℚ) < 1
    ∧ (calculateMetrics ⟨.buy, .market, JNum.fin 1, JNum.nan⟩
        ⟨[(99, 1)], []⟩).fillPercent = JNum.fin 0
    ∧ (calculateMetrics ⟨.sell, .market, JNum.fin 1, JNum.nan⟩
        ⟨[], [(99, 1)]⟩).impact = JNum.nan :=
  ⟨by norm_num,
   ((c4_amended_empty_side_degrades 1 (by norm_num) JNum.nan [(99, 1)]
      [(99, 1)]).1).1,
   ((c4_amended_empty_side_degrades 1 (by norm_num) JNum.nan [(99, 1)]
      [(99, 1)]).2).2.2⟩

theorem JNum.fin_zero_add : ∀ a : JNum, JNum.add (JNum.fin 0) a = a := by
  intro a
  cases a <;> simp [JNum.add]

/-- C5: the market walk of calculateMetrics agrees with the specified
recursion (fill min(remaining, levelSize) per level, accumulate cost,
stop at zero remaining or exhaustion) for every book side and quantity,
and on the spec's two test vectors: a Buy of 2 against asks
[[100,1],[101,2],[102,5]] fills 2 at average 100.5 for a 100 percent
fill, and a Buy of 10 fills 8 of 10 at average 812/8 for an 80 percent
fill. -/
theorem c5_market_walk_matches_spec :
    (∀ (levels : List Level) (qty : JNum),
        (marketLoop levels qty).filledQty = (marketWalkSpec levels qty).1
      ∧ (marketLoop levels qty).totalCost = (marketWalkSpec levels qty).2)
    ∧ (marketLoop [(100, 1), (101, 2), (102, 5)] (JNum.fin 2)).filledQty
        = JNum.fin 2
    ∧ JNum.div (marketLoop [(100, 1), (101, 2), (102, 5)] (JNum.fin 2)).totalCost
        (marketLoop [(100, 1), (101, 2), (102, 5)] (JNum.fin 2)).filledQty
        = JNum.fin (201 / 2)
    ∧ (calculateMetrics ⟨.buy, .market, JNum.fin 2, JNum.nan⟩
        ⟨[], [(100, 1), (101, 2), (102, 5)]⟩).fillPercent = JNum.fin 100
    ∧ (marketLoop [(100, 1), (101, 2), (102, 5)] (JNum.fin 10)).filledQty
        = JNum.fin 8
    ∧ JNum.div (marketLoop [(100, 1), (101, 2), (102, 5)] (JNum.fin 10)).totalCost
        (marketLoop [(100, 1), (101, 2), (102, 5)] (JNum.fin 10)).filledQty
        = JNum.fin ((100 * 1 + 101 * 2 + 102 * 5) / 8)
    ∧ (calculateMetrics ⟨.buy, .market, JNum.fin 10, JNum.nan⟩
        ⟨[], [(100, 1), (101, 2), (102, 5)]⟩).fillPercent = JNum.fin 80 := by
  refine ⟨fun levels qty => ?_, ?_, ?_, ?_, ?_, ?_, ?_⟩
  · have h := marketLoop_eq_walk levels
      { filledQty := JNum.fin 0, totalCost := JNum.fin 0,
        qtyToFill := qty, broke := false } rfl
    simpa [marketLoop, JNum.fin_zero_add] using h
  all_goals
    norm_num [calculateMetrics, metricsCore, marketLoop, marketStep,
      JNum.jmin, JNum.add, JNum.mul, JNum.sub, JNum.neg, JNum.div,
      JNum.jabs, JNum.le, JNum.lt, JNum.gt]

/-- C6: on a limit walk with positive quantity, a level fills only when
its price satisfies the limit (levelPrice <= limitPrice for a Buy,
levelPrice >= limitPrice for a Sell); ineligible levels consume nothing
and do not end the walk, so the filled quantity equals the market-style
walk over just the eligible levels.  On bids [[99,1],[98,2]], a Sell of
quantity 1 with limit 100 fills nothing and reports a 0 percent fill. -/
theorem c6_limit_walk_skips_ineligible :
    (∀ (side : Side) (limitPrice : JNum) (levels : List Level) (t : ℚ),
        0 < t →
        (limitLoop side limitPrice levels (JNum.fin t)).filledQty
          = (marketWalkSpec (levels.filter (eligLevel side limitPrice))
              (JNum.fin t)).1)
    ∧ (limitLoop .sell (JNum.fin 100) [(99, 1), (98, 2)]
        (JNum.fin 1)).filledQty = JNum.fin 0
    ∧ (calculateMetrics ⟨.sell, .limit, JNum.fin 1, JNum.fin 100⟩
        ⟨[(99, 1), (98, 2)], []⟩).fillPercent = JNum.fin 0 := by
  refine ⟨fun side limitPrice levels t ht => ?_, ?_, ?_⟩
  · have h := limitLoop_eq_filtered_walk side limitPrice levels
      (JNum.fin 0) t ht
    simpa [limitLoop, JNum.fin_zero_add] using h
  all_goals
    norm_num [calculateMetrics, metricsCore, limitLoop, limitStep,
      eligLevel, JNum.jmin, JNum.add, JNum.mul, JNum.sub, JNum.neg,
      JNum.div, JNum.jabs, JNum.le, JNum.lt, JNum.gt, JNum.ge]

theorem c6_witness :
    (0 : ℚ) < 1
    ∧ (limitLoop .sell (JNum.fin 100) [(99, 1), (98, 2)]
        (JNum.fin 1)).filledQty
      = (marketWalkSpec
          (List.filter (eligLevel .sell (JNum.fin 100)) [(99, 1), (98, 2)])
          (JNum.fin 1)).1 :=
  ⟨by norm_num,
   c6_limit_walk_skips_ineligible.1 .sell (JNum.fin 100) [(99, 1), (98, 2)]
     1 (by norm_num)⟩

/-- C7: for every limit order against every book, the returned
slippagePercent and priceImpact are exactly 0: the limit branch never
assigns either local, so they keep their initial zero values. -/
theorem c7_limit_orders_zero_slippage_impact :
    ∀ (side : Side) (qty price : JNum) (book : Book),
      (calculateMetrics ⟨side, .limit, qty, price⟩ book).slippage = JNum.fin 0
      ∧ (calculateMetrics ⟨side, .limit, qty, price⟩ book).impact
        = JNum.fin 0 := by
  intro side qty price book
  constructor <;> simp [calculateMetrics, metricsCore, JNum.gt, JNum.lt]

/-- C8: the warning field is a non-empty string exactly when the computed
slippagePercent exceeds 0.5; at or below that threshold it stays the
empty string (rendered as absent). -/
theorem c8_warning_iff_slippage_above_half :
    ∀ (order : SimOrder) (book : Book),
      (calculateMetrics order book).warning ≠ ""
        ↔ JNum.gt (calculateMetrics order book).slippage
            (JNum.fin (1 / 2)) = true := by
  intro order book
  show (if JNum.gt (metricsCore order book).2.1 (JNum.fin (1/2))
      then warnText else "") ≠ "" ↔ _
  cases h : JNum.gt (metricsCore order book).2.1 (JNum.fin (1/2)) with
  | true =>
    have h' := h
    simp only [one_div] at h'
    simp [calculateMetrics, warnText, one_div, h']
  | false =>
    have h' := h
    simp only [one_div] at h'
    simp [calculateMetrics, one_div, h']

theorem jsFindIndex_eq_specLocator (pred : Level → Bool) (l : List Level) :
    jsFindIndex pred l = specLocator pred l := by
  rw [jsFindIndex, jsFindIndexFrom_eq]
  cases h : firstIdxSpec pred l <;> simp [specLocator, h]

theorem specLocator_eq_neg_one_iff (pred : Level → Bool) (l : List Level) :
    specLocator pred l = -1 ↔ firstIdxSpec pred l = none := by
  cases h : firstIdxSpec pred l with
  | none => simp [specLocator, h]
  | some i =>
    simp only [specLocator, h]
    constructor
    · intro hi
      omega
    · intro hi
      cases hi

/- The predicate of the claim, by order side: a Buy locates in the asks
   ladder at orderPrice >= levelPrice, a Sell in the bids ladder at
   orderPrice <= levelPrice. -/
def locPred (o : LocatorOrder) : Level → Bool :=
  match o.side with
  | .buy => fun lvl => JNum.ge o.price (JNum.fin lvl.1)
  | .sell => fun lvl => JNum.le o.price (JNum.fin lvl.1)

/-- C9: findSimulatedIndex returns the index of the first level of the
given ladder whose price satisfies orderPrice >= levelPrice for a Buy
(asks ladder use) or orderPrice <= levelPrice for a Sell (bids ladder
use), and -1 when no level qualifies, including on the empty ladder and
when there is no pending order. -/
theorem c9_locator_is_first_matching_index :
    ∀ (levels : List Level) (o : LocatorOrder),
      findSimulatedIndex levels (some o) = specLocator (locPred o) levels
      ∧ (specLocator (locPred o) levels = -1
          ↔ ∀ lvl ∈ levels, locPred o lvl = false)
      ∧ (∀ i : Nat, specLocator (locPred o) levels = (i : Int) →
           ∃ h : i < levels.length, locPred o (levels.get ⟨i, h⟩) = true
             ∧ ∀ j : Nat, ∀ hj : j < i,
                 locPred o (levels.get ⟨j, by omega⟩) = false)
      ∧ findSimulatedIndex levels none = -1 := by
  intro levels o
  obtain ⟨side, price⟩ := o
  refine ⟨?_, ?_, ?_, rfl⟩
  · cases side <;>
      simp [findSimulatedIndex, locPred, jsFindIndex_eq_specLocator]
  · rw [specLocator_eq_neg_one_iff]
    exact firstIdxSpec_eq_none_iff _ _
  · intro i hi
    cases h : firstIdxSpec (locPred ⟨side, price⟩) levels with
    | none =>
      simp only [specLocator, h] at hi
      exact absurd hi (by omega)
    | some k =>
      simp only [specLocator, h] at hi
      have hk : k = i := by omega
      subst hk
      exact firstIdxSpec_first _ _ k h

theorem c9_witness :
    findSimulatedIndex [(100, 1), (99, 2)]
        (some ⟨.buy, JNum.fin (199 / 2)⟩)
      = specLocator (locPred ⟨.buy, JNum.fin (199 / 2)⟩)
          [(100, 1), (99, 2)] :=
  (c9_locator_is_first_matching_index [(100, 1), (99, 2)]
    ⟨.buy, JNum.fin (199 / 2)⟩).1

/- ---- OrderForm.handleSubmit validation (page.js lines 357-369).  The
   two text fields appear both as JavaScript truthiness of the raw string
   (empty string is falsy) and as their parseFloat value. -/
structure OrderFormData where
  orderType : OrderType
  priceNonempty : Bool
  priceVal : JNum
  quantityNonempty : Bool
  quantityVal : JNum
  deriving DecidableEq

def orderFormValid (f : OrderFormData) : Bool :=
  !(decide (f.orderType = .limit)
      && (!f.priceNonempty || JNum.le f.priceVal (JNum.fin 0)))
    && !(!f.quantityNonempty || JNum.le f.quantityVal (JNum.fin 0))

/-- C10: whenever the parsed quantity is not strictly positive (zero,
negative, or NaN, for which every comparison is false), calculateMetrics
reports fillPercent = 100; the quantity > 0 precondition lives only in
the form validation, which rejects such submissions before the simulator
runs. -/
theorem c10_nonpositive_quantity_reports_full_fill :
    (∀ (side : Side) (otype : OrderType) (price : JNum) (book : Book)
        (qty : JNum),
        JNum.gt qty (JNum.fin 0) = false →
        (calculateMetrics ⟨side, otype, qty, price⟩ book).fillPercent
          = JNum.fin 100)
    ∧ (∀ f : OrderFormData, JNum.le f.quantityVal (JNum.fin 0) = true →
        orderFormValid f = false) := by
  constructor
  · intro side otype price book qty h
    simp [calculateMetrics, h]
  · intro f h
    simp [orderFormValid, h]

theorem c10_witness :
    JNum.gt (JNum.fin 0) (JNum.fin 0) = false
    ∧ (calculateMetrics ⟨.buy, .market, JNum.fin 0, JNum.nan⟩
        ⟨[], [(100, 1)]⟩).fillPercent = JNum.fin 100
    ∧ JNum.le (JNum.fin (-3)) (JNum.fin 0) = true
    ∧ orderFormValid ⟨.market, true, JNum.nan, true, JNum.fin (-3)⟩
      = false := by
  refine ⟨?_, ?_, ?_, ?_⟩
  · norm_num [JNum.gt, JNum.lt]
  · exact c10_nonpositive_quantity_reports_full_fill.1 .buy .market JNum.nan
      ⟨[], [(100, 1)]⟩ (JNum.fin 0) (by norm_num [JNum.gt, JNum.lt])
  · norm_num [JNum.le]
  · exact c10_nonpositive_quantity_reports_full_fill.2
      ⟨.market, true, JNum.nan, true, JNum.fin (-3)⟩
      (by norm_num [JNum.le])

theorem c8_witness :
    (calculateMetrics ⟨.buy, .market, JNum.fin 10, JNum.nan⟩
        ⟨[], [(100, 1), (101, 2), (102, 5)]⟩).warning ≠ ""
      ↔ JNum.gt (calculateMetrics ⟨.buy, .market, JNum.fin 10, JNum.nan⟩
          ⟨[], [(100, 1), (101, 2), (102, 5)]⟩).slippage
          (JNum.fin (1 / 2)) = true :=
  c8_warning_iff_slippage_above_half ⟨.buy, .market, JNum.fin 10, JNum.nan⟩
    ⟨[], [(100, 1), (101, 2), (102, 5)]⟩
